import Mathlib

/-!
Verification of the MRF (machine-readable file) streaming flattener:
a shallow embedding of `mrfutils.py` (JSON-to-CSV flattening of
transparency-in-coverage files) together with theorems about its
row construction, hashing, filtering, stream navigation and
orchestration behaviour.
-/

set_option maxRecDepth 10000

/-- JSON values as produced by the streaming parser and consumed by the
row materializer.  Numbers are modelled as integers (the claims under
study never depend on fractional values). -/
inductive JsonVal where
  | str (s : String)
  | num (n : Int)
  | bool (b : Bool)
  | null
  | arr (xs : List JsonVal)
  | obj (kvs : List (String × JsonVal))

/-- A Python dict: an insertion-ordered association list.  Python dicts
have unique keys; theorems that need that fact carry it as a `Nodup`
hypothesis on the mapped keys. -/
abbrev PyDict := List (String × JsonVal)

/-- Python `d.get(k)`: the value stored at `k`, or `None` (modelled as
`JsonVal.null`) when the key is absent. -/
def pyGet (d : PyDict) (k : String) : JsonVal :=
  match d.find? (fun e => e.1 = k) with
  | some e => e.2
  | none => .null

/-- Whether a Python dict has a given key. -/
def pyHasKey (d : PyDict) (k : String) : Bool :=
  d.any (fun e => e.1 = k)

/-- Python truthiness of a JSON value: `None`, `""`, `0`, `False`, `[]`
and `{}` are falsy, everything else truthy. -/
def pyTruthy : JsonVal → Bool
  | .null => false
  | .str s => !s.isEmpty
  | .num n => n != 0
  | .bool b => b
  | .arr xs => !xs.isEmpty
  | .obj kvs => !kvs.isEmpty

/-- Python `str()` of a scalar value, as used on billing codes and NPI
numbers (`str(code)`, `str(n)`).  The program only ever applies it to
scalars; the container cases are Python's `repr` and never arise in the
flattener, so they are mapped to a placeholder. -/
def pyStrScalar : JsonVal → String
  | .str s => s
  | .num n => toString n
  | .bool b => if b then "True" else "False"
  | .null => "None"
  | .arr _ => "<list>"
  | .obj _ => "<dict>"

/-- The characters Python `str.strip()` removes (ASCII whitespace). -/
def pyIsSpace (c : Char) : Bool :=
  c = ' ' || c = '\t' || c = '\n' || c = '\r' || c = '\x0b' || c = '\x0c'

/-- Python `s.strip()`: remove leading and trailing whitespace. -/
def pyStrip (s : String) : String :=
  String.mk (((s.toList.dropWhile pyIsSpace).reverse.dropWhile pyIsSpace).reverse)

/-- Lower-case hex digit, as emitted by `json.dumps` escapes. -/
def hexDigit (n : Nat) : Char :=
  if n < 10 then Char.ofNat (48 + n) else Char.ofNat (87 + n % 16)

/-- Four-digit hexadecimal rendering of a code unit, for a JSON string
escape of the form backslash-u-XXXX. -/
def u16Hex (n : Nat) : String :=
  String.mk [hexDigit ((n >>> 12) % 16), hexDigit ((n >>> 8) % 16),
             hexDigit ((n >>> 4) % 16), hexDigit (n % 16)]

/-- Escape of one character inside a JSON string, following CPython's
`json.dumps` with its default `ensure_ascii=True`: printable ASCII is
kept, short escapes for quote, backslash and common controls, hex
escapes for the rest (surrogate pairs above the BMP). -/
def escChar (c : Char) : String :=
  let n := c.toNat
  if c = '"' then "\\\""
  else if c = '\\' then "\\\\"
  else if c = '\n' then "\\n"
  else if c = '\t' then "\\t"
  else if c = '\r' then "\\r"
  else if n = 8 then "\\b"
  else if n = 12 then "\\f"
  else if 32 ≤ n && n ≤ 126 then String.singleton c
  else if n < 65536 then "\\u" ++ u16Hex n
  else
    let m := n - 65536
    "\\u" ++ u16Hex (55296 + (m >>> 10)) ++ "\\u" ++ u16Hex (56320 + (m % 1024))

/-- `json.dumps` rendering of a string literal. -/
def pyDumpStr (s : String) : String :=
  "\"" ++ String.join (s.toList.map escChar) ++ "\""

/-- Ordering of dict entries by key, used by `json.dumps(sort_keys=True)`
(CPython sorts `d.items()`; dict keys are unique, so only the key part
ever decides the order). -/
def keyLe (a b : String × JsonVal) : Prop := a.1 ≤ b.1

instance : DecidableRel keyLe := fun a b => inferInstanceAs (Decidable (a.1 ≤ b.1))

instance : IsTotal (String × JsonVal) keyLe := ⟨fun a b => le_total a.1 b.1⟩

instance : IsTrans (String × JsonVal) keyLe := ⟨fun _ _ _ h h' => le_trans h h'⟩

theorem perm_sizeOf_eq {α : Type} [SizeOf α] {l₁ l₂ : List α} (h : l₁.Perm l₂) :
    sizeOf l₁ = sizeOf l₂ := by
  induction h with
  | nil => rfl
  | cons x _ ih => simp [ih]
  | swap x y l => simp; omega
  | trans _ _ ih₁ ih₂ => omega

/-- Python `json.dumps` with default separators (`", "` and `": "`).
When `sk` is set, object entries are emitted in sorted key order at
every nesting level (`sort_keys=True`); Python's `sorted` is modelled
by the stable `List.insertionSort`. -/
def pyDumps (sk : Bool) : JsonVal → String
  | .str s => pyDumpStr s
  | .num n => toString n
  | .bool b => if b then "true" else "false"
  | .null => "null"
  | .arr xs =>
      "[" ++ String.intercalate ", " (xs.attach.map (fun x => pyDumps sk x.1)) ++ "]"
  | .obj kvs =>
      let es := if sk then kvs.insertionSort keyLe else kvs
      have hes : ∀ e ∈ es, e ∈ kvs := by
        intro e he
        by_cases h : sk
        · simp [es, h] at he; exact he
        · simp [es, h] at he; exact he
      "\x7b" ++
        String.intercalate ", "
          (es.attach.map (fun e => pyDumpStr e.1.1 ++ ": " ++ pyDumps sk e.1.2)) ++
      "\x7d"
termination_by v => sizeOf v
decreasing_by
  · have := List.sizeOf_lt_sizeOf_of_mem x.2
    simp only [JsonVal.arr.sizeOf_spec]
    omega
  · obtain ⟨⟨k, v⟩, hm⟩ := e
    have h1 := List.sizeOf_lt_sizeOf_of_mem (hes (k, v) hm)
    simp only [JsonVal.obj.sizeOf_spec, Prod.mk.sizeOf_spec] at h1 ⊢
    omega

theorem pyDumps_str (sk : Bool) (s : String) : pyDumps sk (.str s) = pyDumpStr s := by
  rw [pyDumps]

theorem pyDumps_num (sk : Bool) (n : Int) : pyDumps sk (.num n) = toString n := by
  rw [pyDumps]

theorem pyDumps_null (sk : Bool) : pyDumps sk .null = "null" := by
  rw [pyDumps]

theorem pyDumps_arr (sk : Bool) (xs : List JsonVal) :
    pyDumps sk (.arr xs) =
      "[" ++ String.intercalate ", " (xs.map (pyDumps sk)) ++ "]" := by
  rw [pyDumps, List.attach_map_val]

theorem pyDumps_obj (sk : Bool) (kvs : List (String × JsonVal)) :
    pyDumps sk (.obj kvs) =
      "\x7b" ++
        String.intercalate ", "
          ((if sk then kvs.insertionSort keyLe else kvs).map
            (fun e => pyDumpStr e.1 ++ ": " ++ pyDumps sk e.2)) ++
      "\x7d" := by
  rw [pyDumps,
    List.attach_map_val (if sk then kvs.insertionSort keyLe else kvs)
      (fun e => pyDumpStr e.1 ++ ": " ++ pyDumps sk e.2)]

/-- UTF-8 encoding of one character (byte values as naturals). -/
def utf8Char (c : Char) : List Nat :=
  let n := c.toNat
  if n < 128 then [n]
  else if n < 2048 then [192 ||| (n >>> 6), 128 ||| (n % 64)]
  else if n < 65536 then
    [224 ||| (n >>> 12), 128 ||| ((n >>> 6) % 64), 128 ||| (n % 64)]
  else
    [240 ||| (n >>> 18), 128 ||| ((n >>> 12) % 64), 128 ||| ((n >>> 6) % 64),
     128 ||| (n % 64)]

/-- UTF-8 encoding of a string, as `s.encode('utf-8')`. -/
def utf8Bytes (s : String) : List Nat :=
  (s.toList.map utf8Char).flatten

/-- 32-bit right rotation on naturals reduced mod 2^32. -/
def rotr32 (n x : Nat) : Nat :=
  ((x >>> n) ||| (x <<< (32 - n))) % 4294967296

/-- The SHA-256 round constants (FIPS 180-4). -/
def shaK : List Nat :=
  [1116352408, 1899447441, 3049323471, 3921009573, 961987163,
   1508970993, 2453635748, 2870763221, 3624381080, 310598401,
   607225278, 1426881987, 1925078388, 2162078206, 2614888103,
   3248222580, 3835390401, 4022224774, 264347078, 604807628,
   770255983, 1249150122, 1555081692, 1996064986, 2554220882,
   2821834349, 2952996808, 3210313671, 3336571891, 3584528711,
   113926993, 338241895, 666307205, 773529912, 1294757372,
   1396182291, 1695183700, 1986661051, 2177026350, 2456956037,
   2730485921, 2820302411, 3259730800, 3345764771, 3516065817,
   3600352804, 4094571909, 275423344, 430227734, 506948616,
   659060556, 883997877, 958139571, 1322822218, 1537002063,
   1747873779, 1955562222, 2024104815, 2227730452, 2361852424,
   2428436474, 2756734187, 3204031479, 3329325298]

/-- The SHA-256 initial hash values. -/
def shaH0 : List Nat :=
  [1779033703, 3144134277, 1013904242, 2773480762, 1359893119,
   2600822924, 528734635, 1541459225]

/-- Big-endian rendering of a 32-bit word as four bytes. -/
def be32 (w : Nat) : List Nat :=
  [(w >>> 24) % 256, (w >>> 16) % 256, (w >>> 8) % 256, w % 256]

/-- Big-endian rendering of a 64-bit length as eight bytes. -/
def be64 (n : Nat) : List Nat :=
  [(n >>> 56) % 256, (n >>> 48) % 256, (n >>> 40) % 256, (n >>> 32) % 256,
   (n >>> 24) % 256, (n >>> 16) % 256, (n >>> 8) % 256, n % 256]

/-- SHA-256 message padding: a 0x80 byte, zeros to 56 mod 64, then the
bit length in big-endian. -/
def shaPad (msg : List Nat) : List Nat :=
  let len := msg.length
  let zeros := (119 - (len % 64)) % 64
  msg ++ [128] ++ List.replicate zeros 0 ++ be64 (8 * len)

/-- Group a 64-byte block into sixteen big-endian 32-bit words. -/
def blockWords : List Nat → List Nat
  | b0 :: b1 :: b2 :: b3 :: rest =>
      (((b0 * 256 + b1) * 256 + b2) * 256 + b3) :: blockWords rest
  | _ => []

/-- Extend sixteen schedule words to sixty-four (σ0/σ1 mixing),
`k` counts the remaining extension steps. -/
def shaExtend : Nat → List Nat → List Nat
  | 0, w => w
  | k + 1, w =>
      let i := w.length
      let w2 := w.getD (i - 2) 0
      let w7 := w.getD (i - 7) 0
      let w15 := w.getD (i - 15) 0
      let w16 := w.getD (i - 16) 0
      let s0 := (rotr32 7 w15) ^^^ (rotr32 18 w15) ^^^ (w15 >>> 3)
      let s1 := (rotr32 17 w2) ^^^ (rotr32 19 w2) ^^^ (w2 >>> 10)
      shaExtend k (w ++ [(w16 + s0 + w7 + s1) % 4294967296])

/-- One SHA-256 compression round acting on the eight working words. -/
def shaRound (st : List Nat) (kw : Nat × Nat) : List Nat :=
  match st with
  | [a, b, c, d, e, f, g, h] =>
      let s1 := (rotr32 6 e) ^^^ (rotr32 11 e) ^^^ (rotr32 25 e)
      let ch := (e &&& f) ^^^ ((4294967295 - e) &&& g)
      let t1 := (h + s1 + ch + kw.1 + kw.2) % 4294967296
      let s0 := (rotr32 2 a) ^^^ (rotr32 13 a) ^^^ (rotr32 22 a)
      let mj := (a &&& b) ^^^ (a &&& c) ^^^ (b &&& c)
      let t2 := (s0 + mj) % 4294967296
      [(t1 + t2) % 4294967296, a, b, c, (d + t1) % 4294967296, e, f, g]
  | st => st

/-- SHA-256 compression of one 64-byte block into the running state. -/
def shaCompress (block : List Nat) (hs : List Nat) : List Nat :=
  let w := shaExtend 48 (blockWords block)
  let st := (shaK.zip w).foldl shaRound hs
  (hs.zip st).map (fun p => (p.1 + p.2) % 4294967296)

/-- Byte-at-a-time SHA-256 driver: accumulate a 64-byte buffer and
compress it when full. -/
def shaStep (acc : List Nat × List Nat) (b : Nat) : List Nat × List Nat :=
  let buf := acc.1 ++ [b]
  if buf.length = 64 then ([], shaCompress buf acc.2) else (buf, acc.2)

/-- SHA-256 digest of a byte sequence, as a list of 32 bytes. -/
def sha256 (msg : List Nat) : List Nat :=
  let fin := (shaPad msg).foldl shaStep ([], shaH0)
  (fin.2.map be32).flatten

/-- Little-endian unsigned integer of a byte sequence, as Python's
`int.from_bytes(bs, 'little')`. -/
def leU64 (bs : List Nat) : Nat :=
  bs.reverse.foldl (fun a b => a * 256 + b) 0

/-- Canonical serialization hashed by `dicthasher`:
`json.dumps(data, sort_keys=True)`. -/
def jsonDumpsSorted (d : PyDict) : String :=
  pyDumps true (.obj d)

/-- The hash value computed by `dicthasher` on a non-empty dict: the
first 8 bytes of SHA-256 over the UTF-8 bytes of the key-sorted JSON
serialization, read as a little-endian unsigned integer. -/
def dicthasherVal (d : PyDict) : Nat :=
  leU64 ((sha256 (utf8Bytes (jsonDumpsSorted d))).take 8)

/-- `dicthasher` as in the source: raises on an empty (falsy) dict,
otherwise hashes the canonical serialization. -/
def dicthasher (d : PyDict) : Except String Nat :=
  if d.isEmpty then .error "Hashed dictionary can't be empty"
  else .ok (dicthasherVal d)

/-- `append_hash(item, name)`: store `dicthasher(item)` under `name`.
Every dict the flattener hashes is a freshly built row with a fixed
non-empty key list, so the error branch of `dicthasher` cannot fire
here and the stored value is `dicthasherVal`. -/
def append_hash (item : PyDict) (name : String) : PyDict :=
  item ++ [(name, .num (Int.ofNat (dicthasherVal item)))]

/-- A provider group as the row materializer receives it: by that point
`process_group` has coerced every NPI to a string
(`group['npi'] = [str(n) for n in group['npi']]`). -/
structure PGroup where
  npi : List String
  tin_type : JsonVal
  tin_value : JsonVal

/-- A provider group as parsed from the MRF, before NPI coercion. -/
structure RawGroup where
  npi : List JsonVal
  tin_type : JsonVal
  tin_value : JsonVal

/-- A negotiated price as the row materializer receives it.  The five
scalar fields are read with `price.get(key)` (absent → `None`); the two
optional list fields hold lists of strings when present. -/
structure Price where
  billing_class : Option JsonVal
  negotiated_type : Option JsonVal
  expiration_date : Option JsonVal
  negotiated_rate : Option JsonVal
  additional_information : Option JsonVal
  service_code : Option (List String)
  billing_code_modifier : Option (List String)

/-- One element of `negotiated_rates` after reference swapping:
`rate['negotiated_prices']` and `rate.get('provider_groups', [])`. -/
structure NRate where
  negotiated_prices : List Price
  provider_groups : List PGroup

/-- An in-network item as the writer receives it; the writer indexes the
three code fields directly and calls `.strip()` on them, so they are
strings here. -/
structure InItem where
  billing_code_type : String
  billing_code_type_version : String
  billing_code : String
  negotiated_rates : List NRate

/-- Lexicographic (code-point) comparison of character lists, Python's
string `<=`. -/
def charListLe : List Char → List Char → Bool
  | [], _ => true
  | _ :: _, [] => false
  | a :: as, b :: bs => if a < b then true else if b < a then false else charListLe as bs

/-- Python string `<=` as a decidable relation. -/
def strLe (a b : String) : Prop := charListLe a.toList b.toList = true

instance : DecidableRel strLe := fun a b =>
  inferInstanceAs (Decidable (charListLe a.toList b.toList = true))

/-- Python `sorted` on a list of strings (lexicographic by code point),
modelled by the stable insertion sort. -/
def pySortedStr (l : List String) : List String :=
  l.insertionSort strLe

/-- `code_row_from_dict`: the three stripped code fields plus their
content hash. -/
def code_row_from_dict (item : InItem) : PyDict :=
  append_hash
    [("billing_code_type", .str (pyStrip item.billing_code_type)),
     ("billing_code_type_version", .str (pyStrip item.billing_code_type_version)),
     ("billing_code", .str (pyStrip item.billing_code))]
    "code_hash"

/-- The serialized value stored for a truthy optional list field:
`json.dumps([value.strip() for value in sorted(price[key])])` — the
original elements are sorted first, then each one is stripped. -/
def optListValue (l : List String) : String :=
  pyDumps false (.arr ((pySortedStr l).map (fun v => .str (pyStrip v))))

/-- `price_row_from_dict`: five always-present fields, the two optional
list fields only when truthy, the two foreign hashes, then the row's
own hash. -/
def price_row_from_dict (price : Price) (code_hash filename_hash : JsonVal) : PyDict :=
  let row : PyDict :=
    [("billing_class", price.billing_class.getD .null),
     ("negotiated_type", price.negotiated_type.getD .null),
     ("expiration_date", price.expiration_date.getD .null),
     ("negotiated_rate", price.negotiated_rate.getD .null),
     ("additional_information", price.additional_information.getD .null)]
  let row := match price.service_code with
    | some (x :: xs) => row ++ [("service_code", .str (optListValue (x :: xs)))]
    | _ => row
  let row := match price.billing_code_modifier with
    | some (x :: xs) => row ++ [("billing_code_modifier", .str (optListValue (x :: xs)))]
    | _ => row
  append_hash (row ++ [("code_hash", code_hash), ("filename_hash", filename_hash)])
    "price_hash"

/-- `price_rows_from_dicts`: one price row per negotiated price. -/
def price_rows_from_dicts (prices : List Price) (code_hash filename_hash : JsonVal) :
    List PyDict :=
  prices.map (fun p => price_row_from_dict p code_hash filename_hash)

/-- `group_row_from_dict`: `npi_numbers` is `json.dumps(sorted(npi))`
over the (string) NPI values, plus the TIN fields and the row hash. -/
def group_row_from_dict (g : PGroup) : PyDict :=
  append_hash
    [("npi_numbers", .str (pyDumps false (.arr ((pySortedStr g.npi).map .str)))),
     ("tin_type", g.tin_type),
     ("tin_value", g.tin_value)]
    "provider_group_hash"

/-- `group_rows_from_dicts`: one group row per provider group. -/
def group_rows_from_dicts (groups : List PGroup) : List PyDict :=
  groups.map group_row_from_dict

/-- `prices_groups_rows_from_dicts`: the Cartesian product of the given
price rows and group rows, copying the two hashes. -/
def prices_groups_rows_from_dicts (price_rows group_rows : List PyDict) :
    List PyDict :=
  (price_rows.map (fun p =>
    group_rows.map (fun g =>
      [("provider_group_hash", pyGet g "provider_group_hash"),
       ("price_hash", pyGet p "price_hash")]))).flatten

/-- The six output tables plus the plan-level tables. -/
inductive TableName where
  | files | plans | plans_files | codes | prices | provider_groups
  | prices_provider_groups
deriving DecidableEq

/-- One appended CSV row, tagged with its destination table. -/
structure TRow where
  table : TableName
  row : PyDict

/-- `write_in_network_item`: the code row first, then for each rate its
price rows, its group rows, and the price-group link rows built from
exactly those two row lists. -/
def write_in_network_item (item : InItem) (filename_hash : JsonVal) : List TRow :=
  let code_row := code_row_from_dict item
  let code_hash := pyGet code_row "code_hash"
  TRow.mk .codes code_row ::
    (item.negotiated_rates.map (fun rate =>
      let price_rows := price_rows_from_dicts rate.negotiated_prices code_hash filename_hash
      let group_rows := group_rows_from_dicts rate.provider_groups
      price_rows.map (TRow.mk .prices) ++
      group_rows.map (TRow.mk .provider_groups) ++
      (prices_groups_rows_from_dicts price_rows group_rows).map
        (TRow.mk .prices_provider_groups))).flatten

/-- `Path(filename).stem.split('.')[0]`: the basename up to its first
dot. -/
def fileStem (f : String) : String :=
  ((((f.splitOn "/").getLastD f).splitOn ".").headD "")

/-- `filename_hasher`: hash of the one-key dict holding the stem. -/
def filename_hasher (f : String) : Nat :=
  dicthasherVal [("filename", .str (fileStem f))]

/-- `file_row_from_filename`. -/
def file_row_from_filename (filename : String) (filename_hash : JsonVal)
    (url : String) : PyDict :=
  [("filename", .str (fileStem filename)),
   ("filename_hash", filename_hash),
   ("url", .str url)]

/-- The eight top-level plan keys read by `plan_row_from_dict`. -/
def planKeys : List String :=
  ["reporting_entity_name", "reporting_entity_type", "plan_name", "plan_id",
   "plan_id_type", "plan_market_type", "last_updated_on", "version"]

/-- `plan_row_from_dict`: the eight keys via `.get` plus the plan hash. -/
def plan_row_from_dict (plan : PyDict) : PyDict :=
  append_hash (planKeys.map (fun k => (k, pyGet plan k))) "plan_hash"

/-- `plan_file_row_from_row`. -/
def plan_file_row_from_row (plan_row : PyDict) (filename_hash : JsonVal) : PyDict :=
  [("plan_hash", pyGet plan_row "plan_hash"), ("filename_hash", filename_hash)]

/-- `write_plan`: the file row, then the plan row, then the link row. -/
def write_plan (plan : PyDict) (filename_hash : JsonVal) (filename url : String) :
    List TRow :=
  let file_row := file_row_from_filename filename filename_hash url
  let plan_row := plan_row_from_dict plan
  [TRow.mk .files file_row,
   TRow.mk .plans plan_row,
   TRow.mk .plans_files (plan_file_row_from_row plan_row filename_hash)]

/-- Whether a table is plan-level (written only by `write_plan`). -/
def planLevel : TableName → Bool
  | .files | .plans | .plans_files => true
  | _ => false

/-- Whether iterating the processed-item stream produced a failure at
this element (parse failure, truncated MRF, or a write error raised
while handling the item). -/
def streamFailed : Except String InItem → Bool
  | .error _ => true
  | .ok _ => false

/-- The item loop of `json_mrf_to_csv`: each successfully produced item
is written; the first stream failure aborts the loop, keeping the rows
already written and recording the abort. -/
def itemLoop (items : List (Except String InItem)) (filename_hash : JsonVal) :
    List TRow × Bool :=
  match items with
  | [] => ([], false)
  | .error _ :: _ => ([], true)
  | .ok it :: rest =>
      let r := itemLoop rest filename_hash
      (write_in_network_item it filename_hash ++ r.1, r.2)

/-- The write trace of `json_mrf_to_csv` on one file: the in-network
item loop runs first; `write_plan` runs only if the loop was not
aborted by a raised error. -/
def json_mrf_to_csv_writes (items : List (Except String InItem)) (plan : PyDict)
    (filename_hash : JsonVal) (file url : String) : List TRow :=
  let r := itemLoop items filename_hash
  if r.2 then r.1 else r.1 ++ write_plan plan filename_hash file url

/-- `process_group`: coerce the group's NPIs to strings; with an empty
filter keep the group as is, otherwise keep only filtered NPIs and drop
the group when none survive. -/
def process_group (group : RawGroup) (npi_filter : List String) : Option PGroup :=
  let npis := group.npi.map pyStrScalar
  if npi_filter.isEmpty then some ⟨npis, group.tin_type, group.tin_value⟩
  else
    let kept := npis.filter (fun n => npi_filter.contains n)
    if kept.isEmpty then none else some ⟨kept, group.tin_type, group.tin_value⟩

/-- Equality of a JSON value with a string literal, as Python's `==`
between an arbitrary value and a `str` (only a string compares equal). -/
def strEqB (v : JsonVal) (s : String) : Bool :=
  match v with
  | .str t => t = s
  | _ => false

/-- Membership of `(code_type, str(code))` in the code filter, a set of
string pairs; a non-string `code_type` never equals a string. -/
def pairInCodeFilter (code_type : JsonVal) (code_s : String)
    (f : List (String × String)) : Bool :=
  f.any (fun p => strEqB code_type p.1 && code_s = p.2)

/-- The arrangement clause of `skip_item_by_code`: skip when
`negotiation_arrangement` is truthy and is not the string `"ffs"`. -/
def arrangementSkip (item : PyDict) : Bool :=
  let a := pyGet item "negotiation_arrangement"
  pyTruthy a && !(strEqB a "ffs")

/-- `skip_item_by_code`, as the decision on the item's fields: with a
truthy code, truthy code type and a non-empty filter, skip when the
pair is absent from the filter, and otherwise fall through to the
arrangement clause.  The source evaluates this after every event on the
partially built item; item fields are write-once, so the decision over
the whole item equals the decision on the completed field set. -/
def skip_item_by_code (item : PyDict) (code_filter : List (String × String)) : Bool :=
  let code_type := pyGet item "billing_code_type"
  let code := pyGet item "billing_code"
  if pyTruthy code && pyTruthy code_type && !code_filter.isEmpty then
    if !(pairInCodeFilter code_type (pyStrScalar code) code_filter) then true
    else arrangementSkip item
  else arrangementSkip item

/-- `gen_in_network_items` at item granularity: an item is yielded
complete at its `end_map` exactly when no call to `skip_item_by_code`
fired, which (fields being write-once) is the decision on the completed
item; a skipped item is fast-forwarded past and popped from the
builder, producing nothing. -/
def gen_in_network_items (items : List PyDict)
    (code_filter : List (String × String)) : List PyDict :=
  items.filter (fun it => !skip_item_by_code it code_filter)

/-- The event kinds of the streaming parser. -/
inductive Ev where
  | start_map | end_map | start_array | end_array | map_key
  | str | num | bool | null
deriving DecidableEq

/-- One parser event: a `(prefix, event, value)` triple.  `val` is
`none` for the structural events and for JSON `null` (Python `None`),
and a scalar otherwise. -/
structure Triple where
  pfx : String
  ev : Ev
  val : Option JsonVal

/-- Python `==` between two event values.  Event values are scalars or
`None`; `None == None` is true.  (Python's numeric cross-type equality
such as `True == 1` never arises: every pattern value used is a
string.) -/
def scalarEq : JsonVal → JsonVal → Bool
  | .str a, .str b => a = b
  | .num a, .num b => a = b
  | .bool a, .bool b => a = b
  | _, _ => false

/-- Python `==` lifted to optional event values. -/
def optValEq : Option JsonVal → Option JsonVal → Bool
  | none, none => true
  | some a, some b => scalarEq a b
  | _, _ => false

/-- One `for ... break / else raise StopIteration` loop over the
parser: consume events up to and including the first one satisfying
`cond`, returning the remaining stream; error when the stream runs
out first. -/
def scanBreak (p : List Triple) (cond : Triple → Bool) : Except Unit (List Triple) :=
  match p with
  | [] => .error ()
  | t :: rest => if cond t then .ok rest else scanBreak rest cond

/-- `ffwd`: three sequential (non-exclusive) conditional loops, one for
each possibly-wildcarded component, exactly as in the source.  A
pattern component is wildcarded by passing `none` (Python `None`). -/
def ffwd (p : List Triple) (to_pfx : Option String) (to_ev : Option Ev)
    (to_val : Option JsonVal) : Except Unit (List Triple) := do
  let p ← if to_val.isNone then
      scanBreak p (fun t => (some t.pfx == to_pfx) && (some t.ev == to_ev))
    else pure p
  let p ← if to_pfx.isNone then
      scanBreak p (fun t => (some t.ev == to_ev) && optValEq t.val to_val)
    else pure p
  let p ← if to_ev.isNone then
      scanBreak p (fun t => (some t.pfx == to_pfx) && optValEq t.val to_val)
    else pure p
  pure p

/-- Modelled from the spec: the Object Builder (the concrete builder is
the external `ijson.ObjectBuilder`; §4.2 of the specification fixes its
behaviour).  An open container is a partially built map with an
optional pending key, or a partially built array. -/
inductive BNode where
  | map (entries : List (String × JsonVal)) (pending : Option String)
  | arr (items : List JsonVal)

/-- Modelled from the spec: builder state — the stack of open
containers (innermost first) plus the list of completed top-level
values. -/
structure Builder where
  stack : List BNode
  done : List JsonVal

/-- The empty builder. -/
def Builder.init : Builder := ⟨[], []⟩

/-- Modelled from the spec: insert a completed value into the innermost
open container (using the pending key of a map, appending to an array),
or record it as a completed top-level value. -/
def insertVal (b : Builder) (v : JsonVal) : Builder :=
  match b.stack with
  | [] => ⟨[], b.done ++ [v]⟩
  | .map es (some k) :: rest => ⟨.map (es ++ [(k, v)]) none :: rest, b.done⟩
  | .map es none :: rest => ⟨.map es none :: rest, b.done⟩
  | .arr xs :: rest => ⟨.arr (xs ++ [v]) :: rest, b.done⟩

/-- Modelled from the spec: feed one event into the builder.
`start_map`/`start_array` push, `end_map`/`end_array` pop and insert,
`map_key` sets the pending key, scalars insert (JSON `null` carries no
value). -/
def Builder.event (b : Builder) (e : Ev) (v : Option JsonVal) : Builder :=
  match e with
  | .start_map => ⟨.map [] none :: b.stack, b.done⟩
  | .start_array => ⟨.arr [] :: b.stack, b.done⟩
  | .end_map =>
      match b.stack with
      | .map es _ :: rest => insertVal ⟨rest, b.done⟩ (.obj es)
      | _ => b
  | .end_array =>
      match b.stack with
      | .arr xs :: rest => insertVal ⟨rest, b.done⟩ (.arr xs)
      | _ => b
  | .map_key =>
      match b.stack, v with
      | .map es _ :: rest, some (.str k) => ⟨.map es (some k) :: rest, b.done⟩
      | _, _ => b
  | .null => insertVal b .null
  | _ =>
      match v with
      | some x => insertVal b x
      | none => b

/-- Modelled from the spec: plug a partially built value back through
the enclosing open containers to recover the root value the builder
holds (ijson's containers are mutated in place, so nested partial
values are already visible inside the root). -/
def plugUp (v : JsonVal) : List BNode → JsonVal
  | [] => v
  | .map es (some k) :: rest => plugUp (.obj (es ++ [(k, v)])) rest
  | .map es none :: rest => plugUp (.obj es) rest
  | .arr xs :: rest => plugUp (.arr (xs ++ [v])) rest

/-- Modelled from the spec: `builder.value` — the root value built so
far (possibly partial). -/
def Builder.value (b : Builder) : JsonVal :=
  match b.stack with
  | [] => (b.done.getLast?).getD .null
  | .map es _ :: rest => plugUp (.obj es) rest
  | .arr xs :: rest => plugUp (.arr xs) rest

/-- The stopping condition of `get_plan`:
`value in ('provider_references', 'in_network')` — only the event's
value component is inspected, never its prefix or event kind. -/
def planStopVal (v : Option JsonVal) : Bool :=
  match v with
  | some (.str s) => s = "provider_references" || s = "in_network"
  | _ => false

/-- The event loop of `get_plan`, folding every consumed event into the
builder and returning `builder.value` at the first stopping event. -/
def get_planAux (p : List Triple) (b : Builder) : Except Unit JsonVal :=
  match p with
  | [] => .error ()
  | t :: rest =>
      let b := b.event t.ev t.val
      if planStopVal t.val then .ok b.value
      else get_planAux rest b

/-- `get_plan`: consume events until one whose value is
`"provider_references"` or `"in_network"`, returning the folded object;
raise `InvalidMRF` (modelled as the error case) when the stream ends
first. -/
def get_plan (p : List Triple) : Except Unit JsonVal :=
  get_planAux p .init

/-- Split a character list on a separator character (Python
`str.split(sep)`: always at least one, possibly empty, piece). -/
def splitOnChar (c : Char) (cs : List Char) : List (List Char) :=
  match cs with
  | [] => [[]]
  | x :: rest =>
      let r := splitOnChar c rest
      if x = c then [] :: r
      else
        match r with
        | h :: t => (x :: h) :: t
        | [] => [[x]]

/-- ASCII lower-casing of a string (`str.lower()`; the suffixes under
comparison are ASCII). -/
def strLower (s : String) : String :=
  String.mk (s.toList.map Char.toLower)

/-- Python `s.endswith(suf)`. -/
def strEndsWith (s suf : String) : Bool :=
  suf.toList.isSuffixOf s.toList

/-- `''.join(Path(urlparse(f).path).suffixes)`: the final path
component's combined suffix, following CPython's `pathlib` (empty for a
name ending in a dot; leading dots do not start a suffix). -/
def suffixesJoined (p : String) : String :=
  let name := (splitOnChar '/' p.toList).getLastD p.toList
  if name.getLast? = some '.' then ""
  else
    let name2 := name.dropWhile (fun c => c = '.')
    String.mk ((((splitOnChar '.' name2).tail).map (fun s => '.' :: s)).flatten)

/-- Suffix acceptance of `mrfutils/helpers.py`'s `JSONOpen.__init__`:
`suffix.lower().endswith` one of `.json.gz`, `.json`, `.zip`; anything
else raises. -/
def helpers_suffix_ok (p : String) : Bool :=
  let s := strLower (suffixesJoined p)
  strEndsWith s ".json.gz" || strEndsWith s ".json" || strEndsWith s ".zip"

/-- Suffix acceptance of `processors/mrfutils.py`'s `JSONOpen.__init__`:
exact, case-sensitive membership in `('.json.gz', '.json')`; `.zip` is
not accepted there. -/
def processors_suffix_ok (p : String) : Bool :=
  let s := suffixesJoined p
  s = ".json.gz" || s = ".json"

theorem pyDumps_arr_str (sk : Bool) (l : List String) :
    pyDumps sk (.arr (l.map .str)) =
      "[" ++ String.intercalate ", " (l.map pyDumpStr) ++ "]" := by
  rw [pyDumps_arr, List.map_map]
  have : (pyDumps sk ∘ JsonVal.str) = pyDumpStr := by
    funext a
    exact pyDumps_str sk a
  rw [this]

theorem optListValue_eq (l : List String) :
    optListValue l =
      "[" ++ String.intercalate ", " (((pySortedStr l).map pyStrip).map pyDumpStr) ++ "]" := by
  unfold optListValue
  rw [show ((pySortedStr l).map (fun v => JsonVal.str (pyStrip v))) =
        (((pySortedStr l).map pyStrip).map .str) by rw [List.map_map]; rfl,
    pyDumps_arr_str]

/-- Strict-or-equal ordering on dict entries; antisymmetric, and
implied by `keyLe` on any list whose keys are distinct. -/
def keyLeStrict (a b : String × JsonVal) : Prop := a.1 < b.1 ∨ a = b

instance : IsAntisymm (String × JsonVal) keyLeStrict :=
  ⟨by
    intro a b hab hba
    rcases hab with h | h
    · rcases hba with h' | h'
      · exact absurd h' (lt_asymm h)
      · exact h'.symm
    · exact h⟩

theorem sorted_strict_of_sorted_nodup {l : List (String × JsonVal)}
    (hs : l.Sorted keyLe) (hnd : (l.map Prod.fst).Nodup) :
    l.Sorted keyLeStrict := by
  have hne : l.Pairwise (fun a b : String × JsonVal => a.1 ≠ b.1) := by
    rw [List.Nodup, List.pairwise_map] at hnd
    exact hnd
  have := hs.and hne
  exact this.imp (fun h => Or.inl (lt_of_le_of_ne h.1 h.2))

theorem entries_sort_eq (d1 d2 : PyDict) (hnd : (d1.map Prod.fst).Nodup)
    (hp : d1.Perm d2) :
    d1.insertionSort keyLe = d2.insertionSort keyLe := by
  have hperm : (d1.insertionSort keyLe).Perm (d2.insertionSort keyLe) :=
    (List.perm_insertionSort keyLe d1).trans
      (hp.trans (List.perm_insertionSort keyLe d2).symm)
  have hnd1 : ((d1.insertionSort keyLe).map Prod.fst).Nodup :=
    (((List.perm_insertionSort keyLe d1).map Prod.fst).nodup_iff).mpr hnd
  have hnd2 : ((d2.insertionSort keyLe).map Prod.fst).Nodup :=
    (hperm.map Prod.fst).nodup_iff.mp hnd1
  exact List.eq_of_perm_of_sorted hperm
    (sorted_strict_of_sorted_nodup (List.sorted_insertionSort keyLe d1) hnd1)
    (sorted_strict_of_sorted_nodup (List.sorted_insertionSort keyLe d2) hnd2)

theorem jsonDumpsSorted_perm_eq (d1 d2 : PyDict)
    (hnd : (d1.map Prod.fst).Nodup) (hp : d1.Perm d2) :
    jsonDumpsSorted d1 = jsonDumpsSorted d2 := by
  unfold jsonDumpsSorted
  rw [pyDumps_obj, pyDumps_obj]
  simp only [if_true]
  rw [entries_sort_eq d1 d2 hnd hp]

/-- C2: `dicthasher` on a non-empty dict is the little-endian unsigned
integer of the first 8 bytes of SHA-256 over the UTF-8 encoding of
`json.dumps(d, sort_keys=True)`; two dicts with the same key-value
mappings (permutations of one another, keys being unique) hash
identically; hashing an empty dict raises. -/
theorem C2_dicthasher_canonical (d1 d2 : PyDict)
    (hnd : (d1.map Prod.fst).Nodup) (hp : d1.Perm d2) :
    (d1 ≠ [] →
      dicthasher d1 =
        .ok (leU64 ((sha256 (utf8Bytes (jsonDumpsSorted d1))).take 8)))
    ∧ dicthasher d1 = dicthasher d2
    ∧ dicthasher [] = .error "Hashed dictionary can't be empty" := by
  refine ⟨?_, ?_, rfl⟩
  · intro h
    simp [dicthasher, h, dicthasherVal]
  · by_cases h : d1 = []
    · subst h
      have h2 : d2 = [] := hp.symm.eq_nil
      subst h2
      rfl
    · have h2 : d2 ≠ [] := fun hh => h ((hh ▸ hp).eq_nil)
      unfold dicthasher
      rw [if_neg (by simpa using h), if_neg (by simpa using h2)]
      unfold dicthasherVal
      rw [jsonDumpsSorted_perm_eq d1 d2 hnd hp]

/-- Witness for C2 at a concrete pair of dicts whose entries permute
one another. -/
theorem C2_dicthasher_canonical_witness :
    (([("b", JsonVal.num 2), ("a", JsonVal.num 1)].map Prod.fst).Nodup
      ∧ List.Perm [("b", JsonVal.num 2), ("a", JsonVal.num 1)]
          [("a", JsonVal.num 1), ("b", JsonVal.num 2)])
    ∧ dicthasher [("b", JsonVal.num 2), ("a", JsonVal.num 1)] =
        dicthasher [("a", JsonVal.num 1), ("b", JsonVal.num 2)] :=
  ⟨⟨by decide, List.Perm.swap _ _ _⟩,
    (C2_dicthasher_canonical _ _ (by decide) (List.Perm.swap _ _ _)).2.1⟩

theorem write_item_not_planLevel (it : InItem) (fh : JsonVal) :
    ∀ r ∈ write_in_network_item it fh, planLevel r.table = false := by
  intro r hr
  simp only [write_in_network_item, List.mem_cons, List.mem_flatten,
    List.mem_map] at hr
  rcases hr with h | ⟨block, ⟨rate, hrate, hbl⟩, hrb⟩
  · subst h; rfl
  · subst hbl
    simp only [List.mem_append, List.mem_map] at hrb
    rcases hrb with (⟨p, _, h⟩ | ⟨g, _, h⟩) | ⟨lr, _, h⟩ <;> subst h <;> rfl

theorem itemLoop_failed (items : List (Except String InItem)) (fh : JsonVal) :
    (itemLoop items fh).2 = items.any streamFailed := by
  induction items with
  | nil => rfl
  | cons e rest ih =>
      cases e with
      | error s => rfl
      | ok it => simp [itemLoop, streamFailed, ih]

theorem itemLoop_rows_ok (items : List (Except String InItem)) (fh : JsonVal)
    (h : items.any streamFailed = false) :
    (itemLoop items fh).1 =
      ((items.filterMap Except.toOption).map
        (fun it => write_in_network_item it fh)).flatten := by
  induction items with
  | nil => rfl
  | cons e rest ih =>
      cases e with
      | error s => simp [streamFailed] at h
      | ok it =>
          simp only [List.any_cons, streamFailed, Bool.false_or] at h
          simp [itemLoop, Except.toOption, ih h]

theorem itemLoop_rows_not_plan (items : List (Except String InItem)) (fh : JsonVal) :
    ∀ r ∈ (itemLoop items fh).1, planLevel r.table = false := by
  induction items with
  | nil => intro r hr; simp [itemLoop] at hr
  | cons e rest ih =>
      cases e with
      | error s => intro r hr; simp [itemLoop] at hr
      | ok it =>
          intro r hr
          simp only [itemLoop, List.mem_append] at hr
          rcases hr with h | h
          · exact write_item_not_planLevel it fh r h
          · exact ih r h

/-- C1: the File, Plan and Plan-File rows are written strictly after
every in-network row of the file: on a clean run the trace is exactly
the item rows (none of them plan-level) followed by the `write_plan`
rows, and when the item stream aborts partway the trace contains no
plan-level row at all. -/
theorem C1_plan_rows_last (items : List (Except String InItem)) (plan : PyDict)
    (fh : JsonVal) (file url : String) :
    (items.any streamFailed = true →
      ∀ r ∈ json_mrf_to_csv_writes items plan fh file url,
        planLevel r.table = false)
    ∧ (items.any streamFailed = false →
        json_mrf_to_csv_writes items plan fh file url =
          ((items.filterMap Except.toOption).map
            (fun it => write_in_network_item it fh)).flatten
          ++ write_plan plan fh file url
        ∧ ∀ r ∈ ((items.filterMap Except.toOption).map
            (fun it => write_in_network_item it fh)).flatten,
            planLevel r.table = false) := by
  constructor
  · intro h r hr
    have h2 : (itemLoop items fh).2 = true := by rw [itemLoop_failed]; exact h
    simp only [json_mrf_to_csv_writes, h2, if_true] at hr
    exact itemLoop_rows_not_plan items fh r hr
  · intro h
    have h2 : (itemLoop items fh).2 = false := by rw [itemLoop_failed]; exact h
    constructor
    · simp only [json_mrf_to_csv_writes, h2, if_false, Bool.false_eq_true]
      rw [itemLoop_rows_ok items fh h]
    · intro r hr
      rw [← itemLoop_rows_ok items fh h] at hr
      exact itemLoop_rows_not_plan items fh r hr

/-- Witness for C1: a stream aborted by a parse failure yields a trace
with no plan-level row. -/
theorem C1_plan_rows_last_witness :
    ([(Except.error "parse failure" : Except String InItem)].any streamFailed = true)
    ∧ ∀ r ∈ json_mrf_to_csv_writes
        [(Except.error "parse failure" : Except String InItem)] [] (.num 0) "f" "u",
        planLevel r.table = false :=
  ⟨by decide, (C1_plan_rows_last _ _ _ _ _).1 (by decide)⟩

/-- C9: every price-group link row emitted by `write_in_network_item`
carries the `provider_group_hash` of a group row emitted by the same
call (the link rows are the Cartesian product of the price rows with
exactly the group rows just appended), so a link never references a
group row that was not written. -/
theorem C9_links_have_groups (item : InItem) (fh : JsonVal) :
    ((write_in_network_item item fh).filter
        (fun r => r.table = TableName.prices_provider_groups)).Forall
      (fun l => ∃ g ∈ (write_in_network_item item fh).filter
          (fun r => r.table = TableName.provider_groups),
        pyGet g.row "provider_group_hash" = pyGet l.row "provider_group_hash") := by
  rw [List.forall_iff_forall_mem]
  intro l hl
  rw [List.mem_filter] at hl
  obtain ⟨hmem, htab⟩ := hl
  simp only [write_in_network_item, List.mem_cons, List.mem_flatten,
    List.mem_map] at hmem
  rcases hmem with h | ⟨block, ⟨rate, hrate, hbl⟩, hlb⟩
  · subst h; simp at htab
  · subst hbl
    simp only [List.mem_append, List.mem_map] at hlb
    rcases hlb with (⟨p, _, h⟩ | ⟨g, _, h⟩) | ⟨lr, hlr, h⟩
    · subst h; simp at htab
    · subst h; simp at htab
    · subst h
      simp only [prices_groups_rows_from_dicts, List.mem_flatten,
        List.mem_map] at hlr
      obtain ⟨inner, ⟨prow, hprow, hin⟩, hlin⟩ := hlr
      subst hin
      simp only [List.mem_map] at hlin
      obtain ⟨grow, hgrow, hlr2⟩ := hlin
      subst hlr2
      refine ⟨TRow.mk .provider_groups grow, ?_, ?_⟩
      · rw [List.mem_filter]
        refine ⟨?_, by simp⟩
        simp only [write_in_network_item, List.mem_cons, List.mem_flatten,
          List.mem_map]
        right
        refine ⟨_, ⟨rate, hrate, rfl⟩, ?_⟩
        simp only [List.mem_append, List.mem_map]
        exact Or.inl (Or.inr ⟨grow, hgrow, rfl⟩)
      · simp [pyGet, List.find?]

/-- C4 (amended): `skip_item_by_code` fires exactly when either the
code clause holds — billing code and code type both truthy, a non-empty
code filter, and the `(billing_code_type, str(billing_code))` pair
absent from it — or the arrangement clause holds (truthy
`negotiation_arrangement` other than "ffs"); `gen_in_network_items`
yields exactly the unskipped items. -/
theorem C4_skip_characterization (items : List PyDict) (item : PyDict)
    (f : List (String × String)) :
    skip_item_by_code item f =
      ((pyTruthy (pyGet item "billing_code")
          && pyTruthy (pyGet item "billing_code_type")
          && !f.isEmpty
          && !pairInCodeFilter (pyGet item "billing_code_type")
              (pyStrScalar (pyGet item "billing_code")) f)
        || arrangementSkip item)
    ∧ gen_in_network_items items f =
        items.filter (fun it => !skip_item_by_code it f) := by
  refine ⟨?_, rfl⟩
  unfold skip_item_by_code
  cases hbc : pyTruthy (pyGet item "billing_code") <;>
    cases hbt : pyTruthy (pyGet item "billing_code_type") <;>
      cases hf : f.isEmpty <;>
        cases hp : pairInCodeFilter (pyGet item "billing_code_type")
            (pyStrScalar (pyGet item "billing_code")) f <;>
          simp [hbc, hbt, hf, hp]

/-- The item of the C4 counterexample: a zero billing code is falsy in
Python, so the code-filter clause never fires on it. -/
def c4Item : PyDict := [("billing_code_type", .str "CPT"), ("billing_code", .num 0)]

/-- C4 refuted as stated: a code filter is configured and the item's
pair `("CPT", str(0)) = ("CPT", "0")` is not in it, so the claim
requires an early skip, yet the code does not skip the item and yields
it. -/
theorem C4_counterexample :
    skip_item_by_code c4Item [("CPT", "1")] = false
    ∧ pyHasKey c4Item "billing_code_type" = true
    ∧ pyHasKey c4Item "billing_code" = true
    ∧ pairInCodeFilter (pyGet c4Item "billing_code_type")
        (pyStrScalar (pyGet c4Item "billing_code")) [("CPT", "1")] = false
    ∧ gen_in_network_items [c4Item] [("CPT", "1")] = [c4Item] :=
  ⟨by decide, by decide, by decide, by decide, rfl⟩

/-- The provider group of the concrete C5 scenario. -/
def c5Group : RawGroup :=
  ⟨[.num 1111111111, .num 2020202020, .num 9999999999],
    .str "ein", .str "12-3456789"⟩

/-- The NPI filter of the concrete C5 scenario. -/
def c5Filter : List String := ["1111111111", "5555555555", "2020202020"]

/-- C5 (amended): under a non-empty NPI filter a group survives iff one
of its (stringified) NPIs is in the filter, keeping exactly the
surviving NPIs; the written `npi_numbers` column is the Python
`json.dumps` of the survivors sorted ascending as strings — which
renders with a comma-space separator, so the scenario group yields
the string with a space after the comma. -/
theorem group_row_npi_numbers (g : PGroup) :
    pyGet (group_row_from_dict g) "npi_numbers" =
      .str (pyDumps false (.arr ((pySortedStr g.npi).map .str))) := by
  simp [group_row_from_dict, append_hash, pyGet, List.find?]

theorem C5_group_filter (g : RawGroup) (f : List String) :
    (f ≠ [] →
      (((process_group g f).isSome = true) ↔ ∃ n ∈ g.npi, pyStrScalar n ∈ f)
      ∧ ∀ g', process_group g f = some g' →
          g'.npi = (g.npi.map pyStrScalar).filter (fun n => f.contains n)
          ∧ pyGet (group_row_from_dict g') "npi_numbers" =
              .str (pyDumps false (.arr ((pySortedStr g'.npi).map .str))))
    ∧ process_group g [] = some ⟨g.npi.map pyStrScalar, g.tin_type, g.tin_value⟩
    ∧ (process_group c5Group c5Filter).map
        (fun g' => pyGet (group_row_from_dict g') "npi_numbers")
        = some (.str "[\"1111111111\", \"2020202020\"]") := by
  refine ⟨?_, by simp [process_group], ?_⟩
  · intro hf
    have hfe : f.isEmpty = false := by
      cases f with
      | nil => exact absurd rfl hf
      | cons a t => rfl
    constructor
    · simp only [process_group, hfe, Bool.false_eq_true, if_false]
      by_cases hk : ((g.npi.map pyStrScalar).filter (fun n => f.contains n)).isEmpty = true
      · simp only [hk, if_true, Option.isSome_none, Bool.false_eq_true, false_iff]
        rw [List.isEmpty_iff, List.filter_eq_nil_iff] at hk
        rintro ⟨n, hn, hmem⟩
        exact hk (pyStrScalar n) (List.mem_map_of_mem pyStrScalar hn)
          (by simpa using hmem)
      · simp only [hk, Bool.false_eq_true, if_false, Option.isSome_some, true_iff]
        obtain ⟨x, hx⟩ := List.isEmpty_eq_false_iff_exists_mem.mp
          (Bool.not_eq_true _ ▸ hk)
        rw [List.mem_filter] at hx
        obtain ⟨hxm, hxf⟩ := hx
        rw [List.mem_map] at hxm
        obtain ⟨n, hn, hnx⟩ := hxm
        exact ⟨n, hn, by rw [hnx]; simpa using hxf⟩
    · intro g' hg'
      simp only [process_group, hfe, Bool.false_eq_true, if_false] at hg'
      by_cases hk : ((g.npi.map pyStrScalar).filter (fun n => f.contains n)).isEmpty = true
      · rw [if_pos hk] at hg'
        exact absurd hg' (by simp)
      · rw [if_neg hk] at hg'
        have := (Option.some.injEq _ _).mp hg'
        subst this
        exact ⟨rfl, group_row_npi_numbers _⟩
  · have h1 : process_group c5Group c5Filter =
        some ⟨["1111111111", "2020202020"], .str "ein", .str "12-3456789"⟩ := rfl
    rw [h1]
    simp only [Option.map]
    rw [group_row_npi_numbers]
    rw [show ((pySortedStr (PGroup.mk ["1111111111", "2020202020"]
        (.str "ein") (.str "12-3456789")).npi).map JsonVal.str) =
      (["1111111111", "2020202020"].map JsonVal.str) from rfl]
    rw [pyDumps_arr_str]
    rfl

/-- Witness for C5 at a one-NPI group surviving a one-entry filter. -/
theorem C5_group_filter_witness :
    ((["1"] : List String) ≠ [])
    ∧ process_group ⟨[.num 1], .null, .null⟩ ["1"] = some ⟨["1"], .null, .null⟩
    ∧ (⟨["1"], .null, .null⟩ : PGroup).npi =
        (([JsonVal.num 1]).map pyStrScalar).filter (fun n => ["1"].contains n) :=
  ⟨by decide, rfl,
    (((C5_group_filter ⟨[.num 1], .null, .null⟩ ["1"]).1 (by decide)).2
      ⟨["1"], .null, .null⟩ rfl).1⟩

/-- C6 (amended): the optional price fields appear in the row exactly
when the source list is non-empty, and hold
`json.dumps([v.strip() for v in sorted(l)])` — the original elements
are sorted first and each one stripped afterwards, so the rendered
array need not be sorted. -/
theorem C6_price_optional (price : Price) (ch fh : JsonVal) :
    (pyHasKey (price_row_from_dict price ch fh) "service_code" = true ↔
      ∃ x xs, price.service_code = some (x :: xs))
    ∧ (∀ x xs, price.service_code = some (x :: xs) →
        pyGet (price_row_from_dict price ch fh) "service_code" =
          .str (optListValue (x :: xs)))
    ∧ (pyHasKey (price_row_from_dict price ch fh) "billing_code_modifier" = true ↔
      ∃ x xs, price.billing_code_modifier = some (x :: xs))
    ∧ (∀ x xs, price.billing_code_modifier = some (x :: xs) →
        pyGet (price_row_from_dict price ch fh) "billing_code_modifier" =
          .str (optListValue (x :: xs)))
    ∧ ∀ l, optListValue l =
        pyDumps false (.arr ((pySortedStr l).map (fun v => .str (pyStrip v)))) := by
  refine ⟨?_, ?_, ?_, ?_, fun l => rfl⟩ <;>
    rcases hsc : price.service_code with _ | ⟨_ | ⟨x0, xs0⟩⟩ <;>
      rcases hbcm : price.billing_code_modifier with _ | ⟨_ | ⟨y0, ys0⟩⟩ <;>
        simp [price_row_from_dict, append_hash, pyHasKey, pyGet, List.find?,
          hsc, hbcm]

/-- The price of the C6 counterexample: a `service_code` list whose
raw order under `sorted` differs from the order of the trimmed
elements. -/
def c6Price : Price := ⟨none, none, none, none, none, some [" 2", "1"], none⟩

/-- C6 refuted as stated: the code sorts the raw elements and strips
afterwards, producing the unsorted array ["2", "1"], while the claim's
trim-then-sort order would produce ["1", "2"]. -/
theorem C6_counterexample :
    pyGet (price_row_from_dict c6Price .null .null) "service_code" =
      .str "[\"2\", \"1\"]"
    ∧ pyDumps false (.arr ((pySortedStr ([" 2", "1"].map pyStrip)).map .str)) =
        "[\"1\", \"2\"]"
    ∧ ("[\"2\", \"1\"]" : String) ≠ "[\"1\", \"2\"]" := by
  refine ⟨?_, ?_, by decide⟩
  · simp only [price_row_from_dict, append_hash, pyGet, List.find?, c6Price,
      optListValue_eq]
    rfl
  · rw [show ([" 2", "1"].map pyStrip) = ["2", "1"] from rfl, pyDumps_arr_str]
    rfl

/-- Witness for C6 at the concrete counterexample price. -/
theorem C6_price_optional_witness :
    (c6Price.service_code = some (" 2" :: ["1"]))
    ∧ pyGet (price_row_from_dict c6Price .null .null) "service_code" =
        .str (optListValue (" 2" :: ["1"])) :=
  ⟨rfl, (C6_price_optional c6Price .null .null).2.1 " 2" ["1"] rfl⟩

theorem scanBreak_congr (p : List Triple) (c1 c2 : Triple → Bool)
    (h : ∀ t, c1 t = c2 t) : scanBreak p c1 = scanBreak p c2 := by
  induction p with
  | nil => rfl
  | cons t rest ih => simp only [scanBreak, h t, ih]

theorem scanBreak_always_false (p : List Triple) (c : Triple → Bool)
    (h : ∀ t, c t = false) : scanBreak p c = .error () := by
  induction p with
  | nil => rfl
  | cons t rest ih => simp only [scanBreak, h t, Bool.false_eq_true, if_false, ih]

/-- The claim's matching semantics for `ffwd`: every specified
component of the `(prefix, event, value)` pattern must agree with the
triple; wildcarded components are unconstrained. -/
def matchesPat (t : Triple) (tp : Option String) (te : Option Ev)
    (tv : Option JsonVal) : Bool :=
  (tp.elim true (fun s => t.pfx == s)) && (te.elim true (fun e => t.ev == e))
    && (tv.elim true (fun v => optValEq t.val (some v)))

/-- How many of the three pattern components are wildcarded. -/
def wildcardCount (tp : Option String) (te : Option Ev)
    (tv : Option JsonVal) : Nat :=
  (if tp.isNone then 1 else 0) + (if te.isNone then 1 else 0)
    + (if tv.isNone then 1 else 0)

/-- C7 (amended): `ffwd` behaves as the claim describes only when
exactly one pattern component is wildcarded — consuming events through
the first triple whose specified components match, failing with
StopIteration at end of stream.  With two or more wildcards it always
consumes the entire stream and fails even when a matching triple is
present, and with none wildcarded it returns at once without consuming
anything. -/
theorem C7_ffwd_behavior (p : List Triple) (tp : Option String) (te : Option Ev)
    (tv : Option JsonVal) :
    ffwd p tp te tv =
      (if wildcardCount tp te tv = 1 then
        scanBreak p (fun t => matchesPat t tp te tv)
      else if wildcardCount tp te tv = 0 then .ok p
      else .error ()) := by
  rcases tp with _ | a <;> rcases te with _ | e <;> rcases tv with _ | v <;>
    simp only [ffwd, wildcardCount, Option.isNone_none, Option.isNone_some] <;>
    norm_num
  · rw [scanBreak_always_false p _ (fun t => rfl)]; rfl
  · rw [scanBreak_always_false p _ (fun t => rfl)]; rfl
  · rw [scanBreak_always_false p _ (fun t => rfl)]; rfl
  · exact scanBreak_congr p _ _ (fun t => by simp [matchesPat, Option.elim])
  · rw [scanBreak_always_false p _ (fun t => rfl)]; rfl
  · exact scanBreak_congr p _ _ (fun t => by simp [matchesPat, Option.elim])
  · exact scanBreak_congr p _ _ (fun t => by simp [matchesPat, Option.elim])
  · rfl

/-- The event stream of the C7 counterexample: its very first triple
matches prefix "a" (and also the fully specified pattern). -/
def c7Stream : List Triple := [⟨"a", .str, some (.str "v")⟩]

/-- C7 refuted as stated: with two components wildcarded (only the
prefix specified) the first triple matches, yet `ffwd` raises
StopIteration; with no component wildcarded the pattern matches the
first triple, yet `ffwd` returns without consuming it. -/
theorem C7_counterexample :
    matchesPat ⟨"a", .str, some (.str "v")⟩ (some "a") none none = true
    ∧ ffwd c7Stream (some "a") none none = .error ()
    ∧ matchesPat ⟨"a", .str, some (.str "v")⟩ (some "a") (some .str)
        (some (.str "v")) = true
    ∧ ffwd c7Stream (some "a") (some .str) (some (.str "v")) = .ok c7Stream :=
  ⟨by decide, rfl, by decide, rfl⟩

/-- Feed a sequence of events into a builder, left to right. -/
def feedEvents (b : Builder) (ts : List Triple) : Builder :=
  ts.foldl (fun b t => b.event t.ev t.val) b

theorem get_planAux_isOk (p : List Triple) : ∀ b,
    ((get_planAux p b).isOk = true ↔
      p.any (fun t => planStopVal t.val) = true) := by
  induction p with
  | nil => intro b; simp [get_planAux, Except.isOk, Except.toBool]
  | cons t rest ih =>
      intro b
      simp only [get_planAux, List.any_cons]
      by_cases h : planStopVal t.val = true
      · simp [h, Except.isOk, Except.toBool]
      · simp only [Bool.not_eq_true] at h
        simp [h, ih]

theorem get_planAux_split (pre : List Triple) : ∀ b t rest,
    (∀ u ∈ pre, planStopVal u.val = false) → planStopVal t.val = true →
    get_planAux (pre ++ t :: rest) b = .ok ((feedEvents b (pre ++ [t])).value) := by
  induction pre with
  | nil =>
      intro b t rest _ ht
      simp [get_planAux, ht, feedEvents]
  | cons u pre ih =>
      intro b t rest hpre ht
      have hu : planStopVal u.val = false := hpre u (by simp)
      simp only [List.cons_append, get_planAux, hu, Bool.false_eq_true, if_false,
        feedEvents, List.foldl_cons]
      exact ih _ t rest (fun x hx => hpre x (by simp [hx])) ht

/-- C8 (amended): `get_plan` fails exactly when the stream holds no
event whose value is "provider_references" or "in_network" — missing
required top-level plan keys are never checked and never raise — and
at the first such event it returns the object folded from every event
consumed so far, that event included. -/
theorem C8_get_plan_behavior (p : List Triple) :
    ((get_plan p).isOk = true ↔ p.any (fun t => planStopVal t.val) = true)
    ∧ ∀ pre t rest, p = pre ++ t :: rest →
        (∀ u ∈ pre, planStopVal u.val = false) → planStopVal t.val = true →
        get_plan p = .ok ((feedEvents Builder.init (pre ++ [t])).value) := by
  constructor
  · exact get_planAux_isOk p Builder.init
  · intro pre t rest hsplit hpre ht
    rw [hsplit]
    exact get_planAux_split pre Builder.init t rest hpre ht

/-- The C8 counterexample stream: an object that contains none of the
eight required plan keys, immediately followed by the `in_network`
key. -/
def c8Stream : List Triple :=
  [⟨"", .start_map, none⟩, ⟨"", .map_key, some (.str "in_network")⟩]

/-- C8 refuted as stated: all eight required plan keys are missing,
yet `get_plan` returns successfully (with the empty object) instead of
raising InvalidMRF. -/
theorem C8_counterexample :
    get_plan c8Stream = .ok (.obj [])
    ∧ planKeys.all (fun k => !pyHasKey [] k) = true :=
  ⟨rfl, by decide⟩

/-- Witness for C8 on the two-event stream stopping at `in_network`. -/
theorem C8_get_plan_behavior_witness :
    (c8Stream = [⟨"", Ev.start_map, none⟩] ++ ⟨"", Ev.map_key, some (.str "in_network")⟩ :: []
      ∧ (∀ u ∈ [(⟨"", Ev.start_map, none⟩ : Triple)], planStopVal u.val = false)
      ∧ planStopVal (some (.str "in_network")) = true)
    ∧ get_plan c8Stream =
        .ok ((feedEvents Builder.init
          ([⟨"", Ev.start_map, none⟩] ++ [⟨"", Ev.map_key, some (.str "in_network")⟩])).value) :=
  ⟨⟨rfl, by decide, by decide⟩,
    (C8_get_plan_behavior c8Stream).2 _ _ _ rfl (by decide) (by decide)⟩

theorem get_planAux_pfx_free (s1 : List Triple) : ∀ s2 b,
    s1.map (fun t => (t.ev, t.val)) = s2.map (fun t => (t.ev, t.val)) →
    get_planAux s1 b = get_planAux s2 b := by
  induction s1 with
  | nil =>
      intro s2 b h
      cases s2 with
      | nil => rfl
      | cons u s2t => simp at h
  | cons t rest ih =>
      intro s2 b h
      cases s2 with
      | nil => simp at h
      | cons u s2t =>
          simp only [List.map_cons, List.cons.injEq] at h
          obtain ⟨hpair, htail⟩ := h
          have hev : t.ev = u.ev := congrArg Prod.fst hpair
          have hval : t.val = u.val := congrArg Prod.snd hpair
          simp only [get_planAux, hev, hval]
          rw [ih s2t _ htail]

/-- The stream of the C10 scalar example: `plan_name` holds the string
"in_network"; `last_updated_on` and the real top-level `in_network`
key only come later. -/
def c10Stream : List Triple :=
  [⟨"", .start_map, none⟩,
   ⟨"", .map_key, some (.str "plan_name")⟩,
   ⟨"plan_name", .str, some (.str "in_network")⟩,
   ⟨"", .map_key, some (.str "last_updated_on")⟩,
   ⟨"last_updated_on", .str, some (.str "2024-01-01")⟩,
   ⟨"", .map_key, some (.str "in_network")⟩,
   ⟨"in_network", .start_array, none⟩]

/-- The stream of the C10 nested example: a map key `in_network`
nested inside another object. -/
def c10Nested : List Triple :=
  [⟨"", .start_map, none⟩,
   ⟨"", .map_key, some (.str "meta")⟩,
   ⟨"meta", .start_map, none⟩,
   ⟨"meta", .map_key, some (.str "in_network")⟩,
   ⟨"meta.in_network", .num, some (.num 1)⟩,
   ⟨"meta", .end_map, none⟩,
   ⟨"", .map_key, some (.str "in_network")⟩,
   ⟨"in_network", .start_array, none⟩]

/-- A copy of the scalar example stream with every prefix replaced, to
exhibit that `get_plan` never inspects prefixes. -/
def c10StreamX : List Triple :=
  [⟨"x", .start_map, none⟩,
   ⟨"x", .map_key, some (.str "plan_name")⟩,
   ⟨"x", .str, some (.str "in_network")⟩,
   ⟨"x", .map_key, some (.str "last_updated_on")⟩,
   ⟨"x", .str, some (.str "2024-01-01")⟩,
   ⟨"x", .map_key, some (.str "in_network")⟩,
   ⟨"x", .start_array, none⟩]

/-- C10: `get_plan` stops at the first event whose value equals
"provider_references" or "in_network" without inspecting the event
kind or prefix — its result depends only on the (event, value)
sequence — so a plan whose `plan_name` is the scalar "in_network"
is returned truncated at that scalar (before `last_updated_on`), and
a nested map key "in_network" inside another object also stops it
early. -/
theorem C10_value_only_stop :
    (∀ s1 s2 : List Triple,
      s1.map (fun t => (t.ev, t.val)) = s2.map (fun t => (t.ev, t.val)) →
      get_plan s1 = get_plan s2)
    ∧ get_plan c10Stream = .ok (.obj [("plan_name", .str "in_network")])
    ∧ pyHasKey [("plan_name", JsonVal.str "in_network")] "last_updated_on" = false
    ∧ get_plan c10Nested = .ok (.obj [("meta", .obj [])]) :=
  ⟨fun s1 s2 h => get_planAux_pfx_free s1 s2 Builder.init h, rfl, by decide, rfl⟩

/-- Witness for C10: the scalar stream and its prefix-erased copy give
the same plan. -/
theorem C10_value_only_stop_witness :
    (c10Stream.map (fun t => (t.ev, t.val)) =
      c10StreamX.map (fun t => (t.ev, t.val)))
    ∧ get_plan c10Stream = get_plan c10StreamX :=
  ⟨rfl, C10_value_only_stop.1 c10Stream c10StreamX rfl⟩

/-- C3 (amended): the helpers `JSONOpen` accepts an identifier exactly
when the lower-cased combined suffix merely ends with `.json.gz`,
`.json` or `.zip` (so exact matches of the claim are accepted, but so
are longer suffixes such as `.stuff.json`), while the processors
`JSONOpen` accepts only the exact, case-sensitive suffixes `.json.gz`
and `.json` and rejects `.zip` entirely. -/
theorem C3_suffix_recognition (p : String) :
    ((strLower (suffixesJoined p) = ".json.gz"
        ∨ strLower (suffixesJoined p) = ".json"
        ∨ strLower (suffixesJoined p) = ".zip") →
      helpers_suffix_ok p = true)
    ∧ helpers_suffix_ok p =
        (strEndsWith (strLower (suffixesJoined p)) ".json.gz"
          || strEndsWith (strLower (suffixesJoined p)) ".json"
          || strEndsWith (strLower (suffixesJoined p)) ".zip")
    ∧ processors_suffix_ok p =
        ((suffixesJoined p = ".json.gz") || (suffixesJoined p = ".json")) := by
  refine ⟨?_, rfl, rfl⟩
  intro h
  unfold helpers_suffix_ok
  rcases h with h | h | h <;> rw [h] <;> decide

/-- C3 refuted as stated: `data.stuff.json` has combined suffix
`.stuff.json`, which is none of the three accepted suffixes, yet the
helpers opener accepts it; `archive.zip` has exactly the suffix
`.zip`, which the claim accepts, yet the processors opener rejects
it (as it does any upper-case variant). -/
theorem C3_counterexample :
    helpers_suffix_ok "data.stuff.json" = true
    ∧ strLower (suffixesJoined "data.stuff.json") ≠ ".json.gz"
    ∧ strLower (suffixesJoined "data.stuff.json") ≠ ".json"
    ∧ strLower (suffixesJoined "data.stuff.json") ≠ ".zip"
    ∧ processors_suffix_ok "archive.zip" = false
    ∧ strLower (suffixesJoined "archive.zip") = ".zip"
    ∧ processors_suffix_ok "x.JSON" = false
    ∧ strLower (suffixesJoined "x.JSON") = ".json" := by
  refine ⟨by decide, by decide, by decide, by decide, by decide, by decide,
    by decide, by decide⟩

/-- Witness for C3 on a plain `.json` identifier. -/
theorem C3_suffix_recognition_witness :
    (strLower (suffixesJoined "x.json") = ".json")
    ∧ helpers_suffix_ok "x.json" = true :=
  ⟨by decide, (C3_suffix_recognition "x.json").1 (Or.inr (Or.inl (by decide)))⟩

/-- C5 refuted as stated: for the scenario group the written
`npi_numbers` column is `json.dumps(["1111111111", "2020202020"])`,
which Python renders with a space after the comma — not the claimed
string without one. -/
theorem C5_counterexample :
    (process_group c5Group c5Filter).map
        (fun g' => pyGet (group_row_from_dict g') "npi_numbers")
      = some (.str "[\"1111111111\", \"2020202020\"]")
    ∧ ("[\"1111111111\", \"2020202020\"]" : String) ≠
        "[\"1111111111\",\"2020202020\"]" := by
  refine ⟨?_, by decide⟩
  have h1 : process_group c5Group c5Filter =
      some ⟨["1111111111", "2020202020"], .str "ein", .str "12-3456789"⟩ := rfl
  rw [h1]
  simp only [Option.map]
  rw [group_row_npi_numbers]
  rw [show ((pySortedStr (PGroup.mk ["1111111111", "2020202020"]
      (.str "ein") (.str "12-3456789")).npi).map JsonVal.str) =
    (["1111111111", "2020202020"].map JsonVal.str) from rfl]
  rw [pyDumps_arr_str]
  rfl
